import Mathlib

/-!
UBMP4 servo activity: pulse emitter, channel configuration and Timer-0 frame
scheduler.

A shallow embedding of `servo.c`, `servo.h` and `Adv-1-Servo.c`.

* The special-function registers and the two program globals are the fields
  of `State`.  Eight-bit quantities are natural numbers.  The decrement of
  `timer0Periods` and the updates of `servo1Position`, which could leave the
  eight-bit range, are written with an explicit `% 256`; the mask operations
  on `LATC` and `TRISC` stay within a byte.
* What the program does to the outside world, port writes and calibrated
  busy-wait delays, is appended in program order to `State.trace`.
-/

namespace Servo

/-! ## Observable events -/

/-- One externally observable step of the program. -/
inductive Event where
  /-- A write of the given value to the port C output latch `LATC`. -/
  | LATC (v : Nat)
  /-- A write of the given value to the port C direction register `TRISC`. -/
  | TRISC (v : Nat)
  /-- The compiler delay `__delay_us(n)`. -/
  | delay_us (n : Nat)
  /-- The compiler delay `_delay(n)`, `n` instruction cycles. -/
  | delay (n : Nat)
  deriving DecidableEq, Repr

/-! ## Machine state -/

/-- Registers and globals the three source files read or write. -/
structure State where
  /-- Port C output latch. -/
  LATC : Nat
  /-- Port C direction register; a 0 bit enables the output driver. -/
  TRISC : Nat
  /-- Timer 0 count register. -/
  TMR0 : Nat
  /-- Timer 0 overflow interrupt flag. -/
  TMR0IF : Bool
  /-- Timer 0 overflow interrupt enable. -/
  TMR0IE : Bool
  /-- Global `unsigned char servo1Position`. -/
  servo1Position : Nat
  /-- Global `unsigned char timer0Periods`. -/
  timer0Periods : Nat
  /-- Port writes and delays so far, oldest first. -/
  trace : List Event
  deriving DecidableEq, Repr

/-! ## servo.h -/

def SERVO1 : Nat := 0b00000001
def SERVO2 : Nat := 0b00000010
def SERVO3 : Nat := 0b00000100
def SERVO4 : Nat := 0b00001000
def SERVO5 : Nat := 0b00010000
def SERVO6 : Nat := 0b00100000
def SERVO7 : Nat := 0b01000000
def SERVO8 : Nat := 0b10000000

/-- The eight header-pin bitmaps of `servo.h`. -/
def SERVOS : List Nat :=
  [SERVO1, SERVO2, SERVO3, SERVO4, SERVO5, SERVO6, SERVO7, SERVO8]

/-! ## servo.c -/

/-- The C expression `~servo` as far as an eight-bit register sees it.  The
operand is promoted to `int` and complemented there; the result is then
and-ed with an eight-bit register value, which keeps only its low eight
bits, the complement of `servo` within a byte. -/
def compl8 (servo : Nat) : Nat := 255 - servo

/-- Assignment `LATC = v;`. -/
def write_LATC (v : Nat) (s : State) : State :=
  { s with LATC := v, trace := s.trace ++ [Event.LATC v] }

/-- Assignment `TRISC = v;`. -/
def write_TRISC (v : Nat) (s : State) : State :=
  { s with TRISC := v, trace := s.trace ++ [Event.TRISC v] }

/-- Statement `__delay_us(n);`. -/
def delay_us (n : Nat) (s : State) : State :=
  { s with trace := s.trace ++ [Event.delay_us n] }

/-- Statement `_delay(n);`. -/
def delay (n : Nat) (s : State) : State :=
  { s with trace := s.trace ++ [Event.delay n] }

/-- Function `servo_config` of `servo.c`:
`LATC = LATC & ~servo; TRISC = TRISC & ~servo;`. -/
def servo_config (servo : Nat) (s : State) : State :=
  let s := write_LATC (s.LATC &&& compl8 servo) s
  write_TRISC (s.TRISC &&& compl8 servo) s

/-- The loop `for(position; position != 0; position--) { _delay(38); }` of
`servo_pulse`.  The decrement is only reached with `position != 0`, so it
never wraps and the local `position` goes from `position + 1` to
`position`. -/
def servo_pulse_loop : Nat → State → State
  | 0, s => s
  | position + 1, s => servo_pulse_loop position (delay 38 s)

/-- Function `servo_pulse` of `servo.c`. -/
def servo_pulse (servo position : Nat) (s : State) : State :=
  let s := write_LATC (s.LATC ||| servo) s
  let s := delay_us 984 s
  let s := servo_pulse_loop position s
  write_LATC (s.LATC &&& compl8 servo) s

/-! ## Adv-1-Servo.c -/

/-- Interrupt function `servo_int`. -/
def servo_int (s : State) : State :=
  if s.TMR0IF && s.TMR0IE then
    let s := { s with TMR0IF := false }
    let s := { s with TMR0 := 21 }
    let s := { s with timer0Periods := (s.timer0Periods + 255) % 256 }
    if s.timer0Periods == 0 then
      let s := { s with timer0Periods := 3 }
      servo_pulse SERVO1 s.servo1Position s
    else s
  else s

/-- The pushbutton update of the main loop (`SW3`, `SW4` are the pin levels
read; a pressed button reads 0):
`if(SW3 == 0 && servo1Position > 0) servo1Position--;`
`if(SW4 == 0 && servo1Position < 255) servo1Position++;`
with the `unsigned char` arithmetic reduced modulo 256. -/
def main_pushbuttons (SW3 SW4 : Nat) (s : State) : State :=
  let s := if SW3 == 0 && s.servo1Position > 0
    then { s with servo1Position := (s.servo1Position + 255) % 256 } else s
  if SW4 == 0 && s.servo1Position < 255
    then { s with servo1Position := (s.servo1Position + 1) % 256 } else s

/-- Modelled from the spec: the registers and globals when `main` has run
`OSC_config` and `UBMP4_config`.  `UBMP4_config` lives in `UBMP420.c`, which
is absent; Analysis Activity 4 of `Adv-1-Servo.c` quotes its Timer-0 part
(`TMR0 = 21; TMR0IF = 0; TMR0IE = 1;`).  Its port set-up is not quoted, so
the values it leaves in `LATC` and `TRISC` are parameters.  The globals carry
their initialisers from `Adv-1-Servo.c` (`servo1Position = 128`,
`timer0Periods = 3`). -/
def init (latc trisc : Nat) : State :=
  { LATC := latc, TRISC := trisc, TMR0 := 21, TMR0IF := false, TMR0IE := true,
    servo1Position := 128, timer0Periods := 3, trace := [] }

/-- The state in which `main` enters its loop: `init` followed by
`servo_config(SERVO1);`. -/
def main_init (latc trisc : Nat) : State :=
  servo_config SERVO1 (init latc trisc)

/-! ## The Timer-0 tick as seen by the program -/

/-- One serviced Timer-0 tick under the interrupt design: the timer overflow
has set `TMR0IF`, the foreground loop has left `position` in
`servo1Position`, and `servo_int` runs. -/
def tick (position : Nat) (s : State) : State :=
  servo_int { s with TMR0IF := true, servo1Position := position }

/-- A run of serviced ticks, one per element of the list; the element is the
value of `servo1Position` at that tick. -/
def ticks : List Nat → State → State
  | [], s => s
  | position :: rest, s => ticks rest (tick position s)

/-- The events a call of `f` emits when made in state `s`. -/
def call_events (f : State → State) (s : State) : List Event :=
  (f { s with trace := [] }).trace

/-- The events each run of `servo_int` emits, one entry per tick. -/
def tick_log : List Nat → State → List (List Event)
  | [], _ => []
  | position :: rest, s =>
    call_events (tick position) s :: tick_log rest (tick position s)

/-! ## Reading a trace -/

/-- The values written to `LATC`, in order. -/
def LATC_writes : List Event → List Nat
  | [] => []
  | Event.LATC v :: es => v :: LATC_writes es
  | _ :: es => LATC_writes es

/-- Whether a pin of the mask `servo` is driven high in the latch value. -/
def pin_high (servo v : Nat) : Bool := (v &&& servo) != 0

/-- Number of writes in the events that drive a pin of `servo` high. -/
def pulse_starts (servo : Nat) (es : List Event) : Nat :=
  ((LATC_writes es).filter (pin_high servo)).length

/-- Number of pulses started over a whole tick log. -/
def pulse_count (servo : Nat) (log : List (List Event)) : Nat :=
  (log.map (pulse_starts servo)).sum

/-- Number of maximal runs of high levels of the pin `servo` in a sequence
of successive latch values. -/
def high_intervals (servo : Nat) : List Nat → Nat
  | [] => 0
  | [v] => if pin_high servo v then 1 else 0
  | v :: w :: rest =>
    (if pin_high servo v && !pin_high servo w then 1 else 0)
      + high_intervals servo (w :: rest)

/-- Time for which a pin of `servo` is high while the events happen: the
sum of the durations `dur` of the delays executed while the latch, starting
at `latc` and following the writes, has the pin high. -/
def high_time (dur : Event → Nat) (servo : Nat) : Nat → List Event → Nat
  | _, [] => 0
  | _, Event.LATC v :: es => high_time dur servo v es
  | latc, e :: es =>
    (if pin_high servo latc then dur e else 0) + high_time dur servo latc es

/-- The successive values of the pair (`LATC`, `TRISC`) while the events
happen, starting from the given pair. -/
def port_history : Nat × Nat → List Event → List (Nat × Nat)
  | _, [] => []
  | (_, t), Event.LATC v :: es => (v, t) :: port_history (v, t) es
  | (l, _), Event.TRISC v :: es => (l, v) :: port_history (l, v) es
  | lt, _ :: es => port_history lt es

/-! ## Delay calibration -/

/-- Modelled from the spec: the oscillator frequency in Hz.  `_XTAL_FREQ` is
defined in `UBMP420.h`, which is absent; `main` and the Timer-0 comments of
`Adv-1-Servo.c` give the oscillator as 48 MHz. -/
def XTAL_FREQ : Nat := 48000000

/-- Modelled from the spec: the instruction cycles of a delay event.  The
delay macros come with the compiler, not with the sources: `_delay(n)` takes
`n` instruction cycles and `__delay_us(n)` is `_delay(n * (_XTAL_FREQ /
4000000))`, 12 cycles per microsecond at 48 MHz.  Only delays are counted;
port writes and loop instructions are not. -/
def cycles : Event → Nat
  | Event.delay n => n
  | Event.delay_us n => n * (XTAL_FREQ / 4000000)
  | _ => 0

/-- Instruction cycles in `us` microseconds. -/
def us_cycles (us : Nat) : Nat := us * (XTAL_FREQ / 4000000)

/-- Time for which the call `servo_pulse(servo, position)`, made in state
`s`, holds the pin high, each delay lasting what `dur` says. -/
def pulse_high_time (dur : Event → Nat) (servo position : Nat) (s : State) : Nat :=
  high_time dur servo s.LATC (call_events (servo_pulse servo position) s)

/-- Instruction cycles of an event when every iteration of the extension
loop of `servo_pulse` spends `loop_control` cycles on its test, decrement
and branch on top of its `_delay(38)`.  The loop body is the only place a
`_delay` is executed, so the cost of an iteration is put on that event.  The
compiled loop is not part of the sources, so the cost is a parameter; the
comment at the `_delay(38)`, "Clock cycle delay to make 1ms pulse (pos =
255)", puts 255 iterations at 1 ms, about 47 cycles each, which leaves 9 for
loop control. -/
def loop_cycles (loop_control : Nat) : Event → Nat
  | Event.delay n => n + loop_control
  | e => cycles e

/-- Time in instruction cycles for which the call
`servo_pulse(servo, position)`, made in state `s`, holds the pin high, with
`loop_control` cycles of loop control in every iteration. -/
def pulse_cycles (loop_control servo position : Nat) (s : State) : Nat :=
  pulse_high_time (loop_cycles loop_control) servo position s

/-! ## Timer 0 -/

/-- Modelled from the spec: the value `UBMP4_config` (in the absent
`UBMP420.c`) writes to `OPTION_REG`, as quoted in Analysis Activity 4 of
`Adv-1-Servo.c`:
`OPTION_REG = 0b01010111; // Enable port pull-ups, TMR0 internal, div-256`. -/
def OPTION_REG : Nat := 0b01010111

/-- Modelled from the spec: the instruction cycles per count of `TMR0`.  The
Timer 0 hardware is not code; Analysis Activity 4 describes it as counting
the instruction clock (a quarter of the oscillator clock) through the
pre-scaler.  With bit 3 (`PSA`) of `OPTION_REG` clear the pre-scaler is in
use and its ratio is 2 to the power of one more than the low three bits
(`PS`), which is 256 for `PS = 7`. -/
def TMR0_prescale (option_reg : Nat) : Nat :=
  if option_reg.testBit 3 then 1 else 2 ^ (option_reg % 8 + 1)

/-- Modelled from the spec: the instruction cycles from the moment `TMR0`
holds `preset` until it overflows from 255 to 0.  The eight-bit `TMR0` counts
up once per pre-scaler period and raises `TMR0IF` on overflow. -/
def TMR0_overflow_cycles (option_reg preset : Nat) : Nat :=
  (256 - preset) * TMR0_prescale option_reg

/-! ## Bit-level facts about the mask operations -/

theorem testBit_compl8 (servo i : Nat) (h : servo < 256) :
    (compl8 servo).testBit i = (decide (i < 8) && !servo.testBit i) := by
  have h2 : servo < 2 ^ 8 := by simpa using h
  have e : compl8 servo = 2 ^ 8 - (servo + 1) := by
    unfold compl8; norm_num; omega
  rw [e, Nat.testBit_two_pow_sub_succ h2]

/-- Clearing with the complement leaves none of the mask bits set. -/
theorem and_compl8_and (x servo : Nat) (h : servo < 256) :
    (x &&& compl8 servo) &&& servo = 0 := by
  apply Nat.eq_of_testBit_eq
  intro i
  simp only [Nat.testBit_and, testBit_compl8 servo i h, Nat.zero_testBit]
  cases x.testBit i <;> cases servo.testBit i <;> simp

/-- Setting the mask bits and then clearing them is clearing them. -/
theorem or_and_compl8 (x servo : Nat) (h : servo < 256) :
    (x ||| servo) &&& compl8 servo = x &&& compl8 servo := by
  apply Nat.eq_of_testBit_eq
  intro i
  simp only [Nat.testBit_and, Nat.testBit_or, testBit_compl8 servo i h]
  cases x.testBit i <;> cases servo.testBit i <;> simp

/-- Setting the mask bits sets them. -/
theorem or_and_self (x servo : Nat) : (x ||| servo) &&& servo = servo := by
  apply Nat.eq_of_testBit_eq
  intro i
  simp only [Nat.testBit_and, Nat.testBit_or]
  cases x.testBit i <;> cases servo.testBit i <;> simp

/-- Setting bits of one mask does not touch a pin of a disjoint mask. -/
theorem or_and_disjoint (x a b : Nat) (h : a &&& b = 0) :
    (x ||| a) &&& b = x &&& b := by
  apply Nat.eq_of_testBit_eq
  intro i
  have hi : (a &&& b).testBit i = false := by rw [h]; simp
  simp only [Nat.testBit_and, Nat.testBit_or] at hi ⊢
  cases x.testBit i <;> cases hb : b.testBit i <;> simp_all

/-- Clearing a pin that is already low changes nothing in a byte. -/
theorem and_compl8_of_low (x servo : Nat) (hx : x < 256) (hs : servo < 256)
    (h : x &&& servo = 0) : x &&& compl8 servo = x := by
  apply Nat.eq_of_testBit_eq
  intro i
  have hi : (x &&& servo).testBit i = false := by rw [h]; simp
  have hx8 : 8 ≤ i → x.testBit i = false := fun h8 =>
    Nat.testBit_lt_two_pow (lt_of_lt_of_le (by simpa using hx)
      (Nat.pow_le_pow_right (by decide) h8))
  simp only [Nat.testBit_and, testBit_compl8 servo i hs] at hi ⊢
  by_cases h8 : i < 8
  · cases hxi : x.testBit i <;> cases hsi : servo.testBit i <;> simp_all
  · rw [hx8 (by omega)]; simp

theorem and_compl8_lt (x servo : Nat) : x &&& compl8 servo < 256 := by
  have : compl8 servo < 2 ^ 8 := by unfold compl8; norm_num; omega
  simpa using Nat.and_lt_two_pow x this

/-- Bits outside the mask survive clearing, within the byte. -/
theorem testBit_and_compl8 (x servo i : Nat) (h : servo < 256) (hi : i < 8)
    (hs : servo.testBit i = false) :
    (x &&& compl8 servo).testBit i = x.testBit i := by
  simp [Nat.testBit_and, testBit_compl8 servo i h, hi, hs]

/-- Bits outside the mask survive setting. -/
theorem testBit_or_mask (x servo i : Nat) (hs : servo.testBit i = false) :
    (x ||| servo).testBit i = x.testBit i := by
  simp [Nat.testBit_or, hs]

/-! ## What the two library functions compute -/

theorem servo_pulse_loop_eq (position : Nat) (s : State) :
    servo_pulse_loop position s
      = { s with trace := s.trace ++ List.replicate position (Event.delay 38) } := by
  induction position generalizing s with
  | zero => simp [servo_pulse_loop]
  | succ n ih =>
    rw [servo_pulse_loop, ih]
    simp [delay, List.replicate_succ]

theorem servo_pulse_eq (servo position : Nat) (s : State) :
    servo_pulse servo position s
      = { s with
          LATC := (s.LATC ||| servo) &&& compl8 servo,
          trace := s.trace ++ (Event.LATC (s.LATC ||| servo) :: Event.delay_us 984
            :: (List.replicate position (Event.delay 38)
              ++ [Event.LATC ((s.LATC ||| servo) &&& compl8 servo)])) } := by
  simp [servo_pulse, servo_pulse_loop_eq, write_LATC, delay_us]

theorem servo_config_eq (servo : Nat) (s : State) :
    servo_config servo s
      = { s with
          LATC := s.LATC &&& compl8 servo,
          TRISC := s.TRISC &&& compl8 servo,
          trace := s.trace ++ [Event.LATC (s.LATC &&& compl8 servo),
            Event.TRISC (s.TRISC &&& compl8 servo)] } := by
  simp [servo_config, write_LATC, write_TRISC]

theorem call_events_servo_pulse (servo position : Nat) (s : State) :
    call_events (servo_pulse servo position) s
      = Event.LATC (s.LATC ||| servo) :: Event.delay_us 984
          :: (List.replicate position (Event.delay 38)
            ++ [Event.LATC ((s.LATC ||| servo) &&& compl8 servo)]) := by
  simp [call_events, servo_pulse_eq]

theorem pin_high_or (x servo : Nat) (h : servo ≠ 0) :
    pin_high servo (x ||| servo) = true := by
  simp [pin_high, or_and_self, h]

theorem pin_high_and_compl8 (x servo : Nat) (h : servo < 256) :
    pin_high servo (x &&& compl8 servo) = false := by
  simp [pin_high, and_compl8_and x servo h]

theorem high_time_delays (dur : Event → Nat) (servo latc n w : Nat) :
    high_time dur servo latc (List.replicate n (Event.delay 38) ++ [Event.LATC w])
      = if pin_high servo latc then n * dur (Event.delay 38) else 0 := by
  induction n with
  | zero => simp [high_time]
  | succ k ih =>
    simp only [List.replicate_succ, List.cons_append, high_time, List.append_eq]
    rw [ih]
    split <;> simp [Nat.succ_mul, Nat.add_comm]

theorem pulse_high_time_eq (dur : Event → Nat) (servo position : Nat) (s : State) :
    pulse_high_time dur servo position s
      = if pin_high servo (s.LATC ||| servo)
        then dur (Event.delay_us 984) + position * dur (Event.delay 38) else 0 := by
  simp only [pulse_high_time, call_events_servo_pulse, high_time, high_time_delays]
  split <;> simp

theorem pulse_cycles_eq (c servo position : Nat) (s : State) (h : servo ≠ 0) :
    pulse_cycles c servo position s = 11808 + (38 + c) * position := by
  simp [pulse_cycles, pulse_high_time_eq, pin_high_or _ _ h, loop_cycles, cycles, XTAL_FREQ,
    Nat.mul_comm]

theorem LATC_writes_servo_pulse (servo position : Nat) (s : State) :
    LATC_writes (call_events (servo_pulse servo position) s)
      = [s.LATC ||| servo, (s.LATC ||| servo) &&& compl8 servo] := by
  rw [call_events_servo_pulse]
  have h : ∀ n w, LATC_writes (List.replicate n (Event.delay 38) ++ [Event.LATC w]) = [w] := by
    intro n w
    induction n with
    | zero => simp [LATC_writes]
    | succ k ih => simp [List.replicate_succ, LATC_writes, ih]
  simp [LATC_writes, h]

/-! ## The pulse emitter -/

/-- C2: for every non-empty pin mask `servo`, every position and every
state, `servo_pulse` returns, and what it emits is the write that raises the
pin, `__delay_us(984)`, then `_delay(38)` exactly `position` times (the body
of the extension loop, once per iteration), then the write that lowers the
pin.  Whatever the durations `dur` of the delays, the pin is high for the
duration of `__delay_us(984)` plus `position` times that of `_delay(38)`. -/
theorem servo_pulse_high_time (dur : Event → Nat) (servo position : Nat) (s : State)
    (hservo : servo ≠ 0) :
    call_events (servo_pulse servo position) s
        = [Event.LATC (s.LATC ||| servo), Event.delay_us 984]
          ++ List.replicate position (Event.delay 38)
          ++ [Event.LATC ((s.LATC ||| servo) &&& compl8 servo)]
      ∧ List.count (Event.delay 38) (call_events (servo_pulse servo position) s) = position
      ∧ pulse_high_time dur servo position s
          = dur (Event.delay_us 984) + position * dur (Event.delay 38) := by
  refine ⟨?_, ?_, ?_⟩
  · simp [call_events_servo_pulse]
  · simp [call_events_servo_pulse, List.count_cons, List.count_replicate_self]
  · simp [pulse_high_time_eq, pin_high_or _ _ hservo]

theorem servo_pulse_high_time_witness :
    SERVO1 ≠ 0 ∧ pulse_high_time cycles SERVO1 255 (main_init 255 255)
      = cycles (Event.delay_us 984) + 255 * cycles (Event.delay 38) :=
  ⟨by decide, (servo_pulse_high_time cycles SERVO1 255 (main_init 255 255) (by decide)).2.2⟩

/-- C3 as stated fails: at position 0 the extension loop runs no iteration,
so whatever loop control costs (here 0 cycles, the delays alone, and 9
cycles, the calibration of the source comment) the pin is high for the 984 us
of `__delay_us(984)`, short of 1000 us. -/
theorem pulse_cycles_short_of_1ms :
    pulse_cycles 0 SERVO1 0 (main_init 0 255) = us_cycles 984
      ∧ pulse_cycles 9 SERVO1 0 (main_init 0 255) = us_cycles 984
      ∧ ¬ (us_cycles 1000 ≤ pulse_cycles 0 SERVO1 0 (main_init 0 255))
      ∧ ¬ (us_cycles 1000 ≤ pulse_cycles 9 SERVO1 0 (main_init 0 255)) := by
  have h0 := pulse_cycles_eq 0 SERVO1 0 (main_init 0 255) (by decide)
  have h9 := pulse_cycles_eq 9 SERVO1 0 (main_init 0 255) (by decide)
  rw [h0, h9]
  decide

/-- C3, amended: at 12 instruction cycles per microsecond, counting the
delays `servo_pulse` executes and `c` cycles of loop control for each
iteration of the extension loop, the pin is high for 984 us plus `38 + c`
cycles per position unit.  That is 984 us at position 0 whatever `c`.  At
position 255 it is never exactly 2000 us, it is within 2 ms exactly when
`c ≤ 9`, and for `c = 9` (the about 47 cycles per iteration of the source
comment) it is 23793 cycles, 1982.75 us.  For `c ≤ 9` it lies between 984 us
and 2 ms for every position in 0..255. -/
theorem pulse_cycles_range (c servo position : Nat) (s : State)
    (hservo : servo ≠ 0) (hpos : position ≤ 255) :
    pulse_cycles c servo position s = us_cycles 984 + (38 + c) * position
      ∧ pulse_cycles c servo 0 s = us_cycles 984
      ∧ pulse_cycles c servo 255 s = us_cycles 984 + 255 * (38 + c)
      ∧ pulse_cycles c servo 255 s ≠ us_cycles 2000
      ∧ (pulse_cycles c servo 255 s ≤ us_cycles 2000 ↔ c ≤ 9)
      ∧ pulse_cycles 9 servo 255 s = 23793
      ∧ 4 * pulse_cycles 9 servo 255 s = us_cycles 7931
      ∧ us_cycles 984 ≤ pulse_cycles c servo position s
      ∧ (c ≤ 9 → pulse_cycles c servo position s ≤ us_cycles 2000) := by
  have e : us_cycles 984 = 11808 := by decide
  have e2 : us_cycles 2000 = 24000 := by decide
  have e3 : us_cycles 7931 = 95172 := by decide
  have hm : (38 + c) * position ≤ (38 + c) * 255 := Nat.mul_le_mul_left _ hpos
  have hP := pulse_cycles_eq c servo position s hservo
  have h0 := pulse_cycles_eq c servo 0 s hservo
  have h255 := pulse_cycles_eq c servo 255 s hservo
  have h9 := pulse_cycles_eq 9 servo 255 s hservo
  rw [hP, h0, h255, h9, e, e2, e3]
  refine ⟨rfl, by omega, by omega, by omega, by omega, by omega, by omega, by omega, ?_⟩
  intro hc
  have hc9 : (38 + c) * 255 ≤ 47 * 255 := Nat.mul_le_mul_right _ (by omega)
  omega

theorem pulse_cycles_range_witness :
    SERVO1 ≠ 0 ∧ 128 ≤ 255
      ∧ pulse_cycles 9 SERVO1 128 (main_init 0 255) = us_cycles 984 + (38 + 9) * 128 :=
  ⟨by decide, by decide,
    (pulse_cycles_range 9 SERVO1 128 (main_init 0 255) (by decide) (by decide)).1⟩

/-- C4: whatever the durations of the delays, the high time of
`servo_pulse` is non-decreasing in the position, and for every position in
0..255 it lies between the high time at position 0 and that at position
255. -/
theorem pulse_high_time_mono (dur : Event → Nat) (servo : Nat) (s : State)
    (p q : Nat) (hpq : p ≤ q) (hq : q ≤ 255) :
    pulse_high_time dur servo p s ≤ pulse_high_time dur servo q s
      ∧ pulse_high_time dur servo 0 s ≤ pulse_high_time dur servo p s
      ∧ pulse_high_time dur servo p s ≤ pulse_high_time dur servo 255 s := by
  simp only [pulse_high_time_eq]
  have h1 := Nat.mul_le_mul_right (dur (Event.delay 38)) hpq
  have h2 := Nat.mul_le_mul_right (dur (Event.delay 38)) (le_trans hpq hq)
  split
  · simp only [Nat.zero_mul, Nat.add_zero]; omega
  · simp

theorem pulse_high_time_mono_witness :
    (100 : Nat) ≤ 200 ∧ (200 : Nat) ≤ 255
      ∧ pulse_high_time cycles SERVO1 100 (main_init 0 255)
          ≤ pulse_high_time cycles SERVO1 200 (main_init 0 255) :=
  ⟨by decide, by decide,
    (pulse_high_time_mono cycles SERVO1 (main_init 0 255) 100 200 (by decide) (by decide)).1⟩

/-- C5: for every non-empty eight-bit pin mask, every position and every
prior state, `servo_pulse` changes nothing but `LATC` (and the record of
what was emitted): it writes `LATC` exactly twice, first `LATC_old | servo`
and last `LATC_old & ~servo`; on return the selected bits are 0; both
written values agree with the prior `LATC` on every bit outside the mask;
`TRISC`, the frame countdown, `servo1Position` and the timer registers are
unchanged; and the levels written form exactly one high interval. -/
theorem servo_pulse_frame (servo position : Nat) (s : State)
    (hservo : servo ≠ 0) (h8 : servo < 256) :
    servo_pulse servo position s
        = { s with
            LATC := s.LATC &&& compl8 servo,
            trace := s.trace ++ call_events (servo_pulse servo position) s }
      ∧ LATC_writes (call_events (servo_pulse servo position) s)
          = [s.LATC ||| servo, s.LATC &&& compl8 servo]
      ∧ (servo_pulse servo position s).LATC &&& servo = 0
      ∧ (∀ v ∈ LATC_writes (call_events (servo_pulse servo position) s),
          ∀ i < 8, servo.testBit i = false → v.testBit i = s.LATC.testBit i)
      ∧ (servo_pulse servo position s).TRISC = s.TRISC
      ∧ (servo_pulse servo position s).timer0Periods = s.timer0Periods
      ∧ (servo_pulse servo position s).servo1Position = s.servo1Position
      ∧ (servo_pulse servo position s).TMR0 = s.TMR0
      ∧ (servo_pulse servo position s).TMR0IF = s.TMR0IF
      ∧ (servo_pulse servo position s).TMR0IE = s.TMR0IE
      ∧ high_intervals servo (LATC_writes (call_events (servo_pulse servo position) s)) = 1 := by
  have hw := LATC_writes_servo_pulse servo position s
  rw [or_and_compl8 _ _ h8] at hw
  refine ⟨?_, hw, ?_, ?_, ?_, ?_, ?_, ?_, ?_, ?_, ?_⟩
  · rw [call_events_servo_pulse, servo_pulse_eq, or_and_compl8 _ _ h8]
  · rw [servo_pulse_eq]; simpa [or_and_compl8 _ _ h8] using and_compl8_and s.LATC servo h8
  · intro v hv i hi hs
    rw [hw] at hv
    simp only [List.mem_cons, List.mem_singleton, List.not_mem_nil, or_false] at hv
    rcases hv with rfl | rfl
    · exact testBit_or_mask _ _ _ hs
    · exact testBit_and_compl8 _ _ _ h8 hi hs
  · simp [servo_pulse_eq]
  · simp [servo_pulse_eq]
  · simp [servo_pulse_eq]
  · simp [servo_pulse_eq]
  · simp [servo_pulse_eq]
  · simp [servo_pulse_eq]
  · rw [hw]
    simp [high_intervals, pin_high_or _ _ hservo, pin_high_and_compl8 _ _ h8]

theorem servo_pulse_frame_witness :
    SERVO3 ≠ 0 ∧ SERVO3 < 256
      ∧ LATC_writes (call_events (servo_pulse SERVO3 7) (main_init 0xA5 255))
          = [(main_init 0xA5 255).LATC ||| SERVO3, (main_init 0xA5 255).LATC &&& compl8 SERVO3] :=
  ⟨by decide, by decide,
    (servo_pulse_frame SERVO3 7 (main_init 0xA5 255) (by decide) (by decide)).2.1⟩

/-! ## Channel configuration -/

/-- C6: for every eight-bit mask and every prior `LATC` and `TRISC`,
`servo_config(servo)` leaves `LATC = LATC_old & ~servo` and
`TRISC = TRISC_old & ~servo`: the selected latch and tristate bits are 0,
every other bit of both registers (bits 0..7) is unchanged, nothing else
changes, and the latch is written before the tristate register, so that from
the first write on, and in particular once the output is enabled, the
selected latch bit is low. -/
theorem servo_config_low_then_enabled (servo : Nat) (s : State) (h8 : servo < 256) :
    servo_config servo s
        = { s with
            LATC := s.LATC &&& compl8 servo,
            TRISC := s.TRISC &&& compl8 servo,
            trace := s.trace ++ call_events (servo_config servo) s }
      ∧ (servo_config servo s).LATC &&& servo = 0
      ∧ (servo_config servo s).TRISC &&& servo = 0
      ∧ (∀ i < 8, servo.testBit i = false →
          (servo_config servo s).LATC.testBit i = s.LATC.testBit i
            ∧ (servo_config servo s).TRISC.testBit i = s.TRISC.testBit i)
      ∧ call_events (servo_config servo) s
          = [Event.LATC (s.LATC &&& compl8 servo), Event.TRISC (s.TRISC &&& compl8 servo)]
      ∧ port_history (s.LATC, s.TRISC) (call_events (servo_config servo) s)
          = [(s.LATC &&& compl8 servo, s.TRISC),
             (s.LATC &&& compl8 servo, s.TRISC &&& compl8 servo)]
      ∧ (∀ lt ∈ port_history (s.LATC, s.TRISC) (call_events (servo_config servo) s),
          lt.1 &&& servo = 0) := by
  have he : call_events (servo_config servo) s
      = [Event.LATC (s.LATC &&& compl8 servo), Event.TRISC (s.TRISC &&& compl8 servo)] := by
    simp [call_events, servo_config_eq]
  refine ⟨?_, ?_, ?_, ?_, he, ?_, ?_⟩
  · rw [he, servo_config_eq]
  · rw [servo_config_eq]; exact and_compl8_and _ _ h8
  · rw [servo_config_eq]; exact and_compl8_and _ _ h8
  · intro i hi hs
    rw [servo_config_eq]
    exact ⟨testBit_and_compl8 _ _ _ h8 hi hs, testBit_and_compl8 _ _ _ h8 hi hs⟩
  · rw [he]; simp [port_history]
  · intro lt hlt
    rw [he] at hlt
    simp only [port_history, List.mem_cons, List.mem_singleton, List.not_mem_nil,
      or_false] at hlt
    rcases hlt with rfl | rfl <;> exact and_compl8_and _ _ h8

theorem servo_config_low_then_enabled_witness :
    SERVO1 < 256 ∧ (servo_config SERVO1 (init 255 255)).LATC &&& SERVO1 = 0 :=
  ⟨by decide, (servo_config_low_then_enabled SERVO1 (init 255 255) (by decide)).2.1⟩

/-! ## Two channels pulsed in sequence -/

theorem LATC_writes_append (xs ys : List Event) :
    LATC_writes (xs ++ ys) = LATC_writes xs ++ LATC_writes ys := by
  induction xs with
  | nil => simp [LATC_writes]
  | cons e es ih => cases e <;> simp [LATC_writes, ih]

theorem mem_SERVOS_lt (a : Nat) (ha : a ∈ SERVOS) : a < 256 := by
  simp only [SERVOS, List.mem_cons, List.mem_singleton, List.not_mem_nil, or_false] at ha
  rcases ha with rfl | rfl | rfl | rfl | rfl | rfl | rfl | rfl <;> decide

theorem mem_SERVOS_ne_zero (a : Nat) (ha : a ∈ SERVOS) : a ≠ 0 := by
  simp only [SERVOS, List.mem_cons, List.mem_singleton, List.not_mem_nil, or_false] at ha
  rcases ha with rfl | rfl | rfl | rfl | rfl | rfl | rfl | rfl <;> decide

theorem mem_SERVOS_disjoint (a b : Nat) (ha : a ∈ SERVOS) (hb : b ∈ SERVOS) (hab : a ≠ b) :
    a &&& b = 0 := by
  simp only [SERVOS, List.mem_cons, List.mem_singleton, List.not_mem_nil, or_false] at ha hb
  rcases ha with rfl | rfl | rfl | rfl | rfl | rfl | rfl | rfl <;>
    rcases hb with rfl | rfl | rfl | rfl | rfl | rfl | rfl | rfl <;>
      first
        | exact absurd rfl hab
        | decide

/-- Clearing a second mask keeps the bits of the first one clear. -/
theorem and_compl8_and_compl8 (x a b : Nat) (ha : a < 256) :
    ((x &&& compl8 a) &&& compl8 b) &&& a = 0 := by
  rw [Nat.and_assoc, Nat.and_comm (compl8 b) a, ← Nat.and_assoc, and_compl8_and x a ha,
    Nat.zero_and]

/-- C7: for two distinct masks `a`, `b` among `SERVO1`..`SERVO8`, both
configured with `servo_config`, and all positions `p`, `q`, the latch values
during `servo_pulse(a, p); servo_pulse(b, q);` are `L | a`, `L`, `L | b`,
`L`, where `L` is the latch before the sequence and has both pins low: the
pin of `a` is low again before the pin of `b` is set, and at no moment, the
start included, are the two pins both high. -/
theorem sequential_pulses_never_overlap (a b p q : Nat) (s0 : State)
    (ha : a ∈ SERVOS) (hb : b ∈ SERVOS) (hab : a ≠ b) :
    LATC_writes (call_events (fun t => servo_pulse b q (servo_pulse a p t))
        (servo_config b (servo_config a s0)))
        = [(servo_config b (servo_config a s0)).LATC ||| a,
           (servo_config b (servo_config a s0)).LATC,
           (servo_config b (servo_config a s0)).LATC ||| b,
           (servo_config b (servo_config a s0)).LATC]
      ∧ pin_high a (servo_config b (servo_config a s0)).LATC = false
      ∧ pin_high b (servo_config b (servo_config a s0)).LATC = false
      ∧ pin_high b ((servo_config b (servo_config a s0)).LATC ||| a) = false
      ∧ pin_high a ((servo_config b (servo_config a s0)).LATC ||| b) = false
      ∧ (∀ v ∈ (servo_config b (servo_config a s0)).LATC
            :: LATC_writes (call_events (fun t => servo_pulse b q (servo_pulse a p t))
                (servo_config b (servo_config a s0))),
          ¬ (pin_high a v = true ∧ pin_high b v = true)) := by
  have ha8 := mem_SERVOS_lt a ha
  have hb8 := mem_SERVOS_lt b hb
  have hd := mem_SERVOS_disjoint a b ha hb hab
  have hd' : b &&& a = 0 := by rw [Nat.and_comm]; exact hd
  have hL : (servo_config b (servo_config a s0)).LATC
      = (s0.LATC &&& compl8 a) &&& compl8 b := by
    simp [servo_config_eq]
  generalize (servo_config b (servo_config a s0)) = s at hL ⊢
  have hLa : s.LATC &&& a = 0 := by rw [hL]; exact and_compl8_and_compl8 _ _ _ ha8
  have hLb : s.LATC &&& b = 0 := by rw [hL]; exact and_compl8_and _ _ hb8
  have hL8 : s.LATC < 256 := by rw [hL]; exact and_compl8_lt _ _
  have hAfterA : (s.LATC ||| a) &&& compl8 a = s.LATC := by
    rw [or_and_compl8 _ _ ha8, and_compl8_of_low _ _ hL8 ha8 hLa]
  have hAfterB : (s.LATC ||| b) &&& compl8 b = s.LATC := by
    rw [or_and_compl8 _ _ hb8, and_compl8_of_low _ _ hL8 hb8 hLb]
  have hw : LATC_writes (call_events (fun t => servo_pulse b q (servo_pulse a p t)) s)
      = [s.LATC ||| a, s.LATC, s.LATC ||| b, s.LATC] := by
    have e : call_events (fun t => servo_pulse b q (servo_pulse a p t)) s
        = call_events (servo_pulse a p) s
          ++ call_events (servo_pulse b q) (servo_pulse a p s) := by
      simp [call_events, servo_pulse_eq]
    rw [e, LATC_writes_append, LATC_writes_servo_pulse, LATC_writes_servo_pulse]
    simp [servo_pulse_eq, hAfterA, hAfterB]
  have h1 : pin_high a s.LATC = false := by simp [pin_high, hLa]
  have h2 : pin_high b s.LATC = false := by simp [pin_high, hLb]
  have h3 : pin_high b (s.LATC ||| a) = false := by
    simp [pin_high, or_and_disjoint _ _ _ hd, hLb]
  have h4 : pin_high a (s.LATC ||| b) = false := by
    simp [pin_high, or_and_disjoint _ _ _ hd', hLa]
  refine ⟨hw, h1, h2, h3, h4, ?_⟩
  intro v hv
  rw [hw] at hv
  simp only [List.mem_cons, List.mem_singleton, List.not_mem_nil, or_false] at hv
  rcases hv with rfl | rfl | rfl | rfl | rfl <;> simp [h1, h3, h4]

theorem sequential_pulses_never_overlap_witness :
    SERVO2 ∈ SERVOS ∧ SERVO5 ∈ SERVOS ∧ SERVO2 ≠ SERVO5
      ∧ pin_high SERVO5 ((servo_config SERVO5 (servo_config SERVO2 (init 255 255))).LATC
          ||| SERVO2) = false :=
  ⟨by decide, by decide, by decide,
    (sequential_pulses_never_overlap SERVO2 SERVO5 10 200 (init 255 255)
      (by decide) (by decide) (by decide)).2.2.2.1⟩

/-! ## The frame scheduler -/

/-- One serviced tick, spelled out: the countdown is decremented modulo 256;
if that gives 0 it is reset to 3 and a pulse is emitted for the current
position, and otherwise nothing is emitted. -/
theorem tick_eq (position : Nat) (s : State) (hIE : s.TMR0IE = true) :
    tick position s
      = if (s.timer0Periods + 255) % 256 = 0 then
          servo_pulse SERVO1 position
            { s with TMR0IF := false, TMR0 := 21, timer0Periods := 3,
                     servo1Position := position }
        else
          { s with TMR0IF := false, TMR0 := 21,
                   timer0Periods := (s.timer0Periods + 255) % 256,
                   servo1Position := position } := by
  simp only [tick, servo_int, hIE, Bool.and_self, if_true, beq_iff_eq]

theorem tick_TMR0IE (position : Nat) (s : State) (hIE : s.TMR0IE = true) :
    (tick position s).TMR0IE = true := by
  rw [tick_eq _ _ hIE]
  split <;> simp [servo_pulse_eq, hIE]

theorem tick_TMR0 (position : Nat) (s : State) (hIE : s.TMR0IE = true) :
    (tick position s).TMR0 = 21 := by
  rw [tick_eq _ _ hIE]
  split <;> simp [servo_pulse_eq]

theorem tick_timer0Periods (position : Nat) (s : State) (hIE : s.TMR0IE = true)
    (h1 : 1 ≤ s.timer0Periods) (h3 : s.timer0Periods ≤ 3) :
    (tick position s).timer0Periods
      = if s.timer0Periods = 1 then 3 else s.timer0Periods - 1 := by
  rw [tick_eq _ _ hIE]
  have hc : ((s.timer0Periods + 255) % 256 = 0) ↔ s.timer0Periods = 1 := by omega
  by_cases h : s.timer0Periods = 1
  · simp [h, servo_pulse_eq]
  · have h' : ¬ ((s.timer0Periods + 255) % 256 = 0) := fun e => h (hc.mp e)
    simp only [h', h, if_false]
    omega

theorem call_events_tick (position : Nat) (s : State) (hIE : s.TMR0IE = true)
    (h1 : 1 ≤ s.timer0Periods) (h3 : s.timer0Periods ≤ 3) :
    call_events (tick position) s
      = if s.timer0Periods = 1 then call_events (servo_pulse SERVO1 position) s else [] := by
  have hc : ((s.timer0Periods + 255) % 256 = 0) ↔ s.timer0Periods = 1 := by omega
  unfold call_events
  rw [tick_eq _ _ (by simpa using hIE)]
  by_cases h : s.timer0Periods = 1
  · simp [h, servo_pulse_eq]
  · have h' : ¬ ((s.timer0Periods + 255) % 256 = 0) := fun e => h (hc.mp e)
    simp [h', h]

theorem pulse_starts_servo_pulse (servo position : Nat) (s : State)
    (h0 : servo ≠ 0) (h8 : servo < 256) :
    pulse_starts servo (call_events (servo_pulse servo position) s) = 1 := by
  simp [pulse_starts, LATC_writes_servo_pulse, List.filter, pin_high_or _ _ h0,
    or_and_compl8 _ _ h8, pin_high_and_compl8 _ _ h8]

/-- The tick log entry by entry, from any phase of the countdown. -/
theorem tick_log_getD (ps : List Nat) (s : State) (k : Nat) (hIE : s.TMR0IE = true)
    (h1 : 1 ≤ s.timer0Periods) (h3 : s.timer0Periods ≤ 3) (hk : k < ps.length) :
    (tick_log ps s).getD k []
      = if (k + 1 + (3 - s.timer0Periods)) % 3 = 0
        then call_events (servo_pulse SERVO1 (ps.getD k 0)) (ticks (ps.take k) s)
        else [] := by
  induction ps generalizing s k with
  | nil => simp at hk
  | cons p rest ih =>
    have ht := tick_timer0Periods p s hIE h1 h3
    cases k with
    | zero =>
      simp only [tick_log, List.getD_cons_zero, call_events_tick p s hIE h1 h3,
        List.take_zero, ticks]
      by_cases h : s.timer0Periods = 1
      · simp [h]
      · have : ¬ ((0 + 1 + (3 - s.timer0Periods)) % 3 = 0) := by omega
        simp [h, this]
    | succ j =>
      have hj : j < rest.length := by simpa using hk
      have h1' : 1 ≤ (tick p s).timer0Periods := by rw [ht]; split <;> omega
      have h3' : (tick p s).timer0Periods ≤ 3 := by rw [ht]; split <;> omega
      simp only [tick_log, List.getD_cons_succ, List.take_succ_cons, ticks]
      rw [ih (tick p s) j (tick_TMR0IE p s hIE) h1' h3' hj]
      have hm : ((j + 1 + (3 - (tick p s).timer0Periods)) % 3 = 0)
          ↔ ((j + 1 + 1 + (3 - s.timer0Periods)) % 3 = 0) := by
        rw [ht]; split <;> omega
      by_cases hc : (j + 1 + 1 + (3 - s.timer0Periods)) % 3 = 0
      · simp [hc, hm.mpr hc]
      · have hc' : ¬ ((j + 1 + (3 - (tick p s).timer0Periods)) % 3 = 0) :=
          fun e => hc (hm.mp e)
        simp [hc, hc']

theorem tick_log_length (ps : List Nat) (s : State) : (tick_log ps s).length = ps.length := by
  induction ps generalizing s with
  | nil => rfl
  | cons p rest ih => simp [tick_log, ih]

/-- The number of pulses in a tick log, from any phase of the countdown. -/
theorem pulse_count_tick_log (ps : List Nat) (s : State) (hIE : s.TMR0IE = true)
    (h1 : 1 ≤ s.timer0Periods) (h3 : s.timer0Periods ≤ 3) :
    pulse_count SERVO1 (tick_log ps s) = (ps.length + (3 - s.timer0Periods)) / 3 := by
  induction ps generalizing s with
  | nil =>
    have : (3 - s.timer0Periods) / 3 = 0 := by omega
    simp [tick_log, pulse_count, this]
  | cons p rest ih =>
    have ht := tick_timer0Periods p s hIE h1 h3
    have h1' : 1 ≤ (tick p s).timer0Periods := by rw [ht]; split <;> omega
    have h3' : (tick p s).timer0Periods ≤ 3 := by rw [ht]; split <;> omega
    have := ih (tick p s) (tick_TMR0IE p s hIE) h1' h3'
    simp only [pulse_count, tick_log, List.map_cons, List.sum_cons, List.length_cons] at this ⊢
    rw [this, call_events_tick p s hIE h1 h3, ht]
    by_cases h : s.timer0Periods = 1
    · simp only [h, if_true, pulse_starts_servo_pulse SERVO1 p s (by decide) (by decide)]
      omega
    · simp only [h, if_false, pulse_starts]
      simp only [LATC_writes, List.filter_nil, List.length_nil]
      omega

/-- The countdown after any number of serviced ticks. -/
theorem ticks_timer0Periods (ps : List Nat) (s : State) (hIE : s.TMR0IE = true)
    (h1 : 1 ≤ s.timer0Periods) (h3 : s.timer0Periods ≤ 3) :
    (ticks ps s).timer0Periods = 3 - (ps.length + (3 - s.timer0Periods)) % 3
      ∧ (ticks ps s).TMR0IE = true := by
  induction ps generalizing s with
  | nil => simp only [ticks, List.length_nil]; exact ⟨by omega, hIE⟩
  | cons p rest ih =>
    have ht := tick_timer0Periods p s hIE h1 h3
    have h1' : 1 ≤ (tick p s).timer0Periods := by rw [ht]; split <;> omega
    have h3' : (tick p s).timer0Periods ≤ 3 := by rw [ht]; split <;> omega
    have := ih (tick p s) (tick_TMR0IE p s hIE) h1' h3'
    simp only [ticks, List.length_cons]
    refine ⟨?_, this.2⟩
    rw [this.1, ht]
    split <;> omega

theorem ticks_append (ps qs : List Nat) (s : State) :
    ticks (ps ++ qs) s = ticks qs (ticks ps s) := by
  induction ps generalizing s with
  | nil => rfl
  | cons p rest ih => simp [ticks, ih]

theorem main_init_eq (latc trisc : Nat) :
    (main_init latc trisc).timer0Periods = 3 ∧ (main_init latc trisc).TMR0IE = true := by
  simp [main_init, servo_config_eq, init]

/-- C1: from a state with `timer0Periods = 3` and the Timer-0 interrupt
enabled, for every number of serviced ticks and every sequence of
`servo1Position` values, the run of `servo_int` on tick `k + 1` emits
exactly the events of one call `servo_pulse(SERVO1, position)` when `k + 1`
is a multiple of 3 and emits nothing otherwise; it starts one pulse on such
a tick and none on the others.  A tick that starts a pulse is followed by
two ticks that start none and then by one that starts the next, so pulse
starts are three ticks apart whatever the positions, and after `n` ticks
`n / 3` pulses have been started (1000 after 3000 ticks). -/
theorem servo_int_frame_cadence (ps : List Nat) (s : State)
    (h3 : s.timer0Periods = 3) (hIE : s.TMR0IE = true) :
    (tick_log ps s).length = ps.length
      ∧ (∀ k < ps.length,
          (tick_log ps s).getD k []
            = if (k + 1) % 3 = 0
              then call_events (servo_pulse SERVO1 (ps.getD k 0)) (ticks (ps.take k) s)
              else [])
      ∧ (∀ k < ps.length,
          pulse_starts SERVO1 ((tick_log ps s).getD k [])
            = if (k + 1) % 3 = 0 then 1 else 0)
      ∧ (∀ k, k + 3 < ps.length →
          pulse_starts SERVO1 ((tick_log ps s).getD k []) = 1 →
            pulse_starts SERVO1 ((tick_log ps s).getD (k + 1) []) = 0
              ∧ pulse_starts SERVO1 ((tick_log ps s).getD (k + 2) []) = 0
              ∧ pulse_starts SERVO1 ((tick_log ps s).getD (k + 3) []) = 1)
      ∧ pulse_count SERVO1 (tick_log ps s) = ps.length / 3
      ∧ (ps.length = 3000 → pulse_count SERVO1 (tick_log ps s) = 1000) := by
  have hlog : ∀ k < ps.length,
      (tick_log ps s).getD k []
        = if (k + 1) % 3 = 0
          then call_events (servo_pulse SERVO1 (ps.getD k 0)) (ticks (ps.take k) s)
          else [] := by
    intro k hk
    have := tick_log_getD ps s k hIE (by omega) (by omega) hk
    simpa [h3] using this
  have hcount : pulse_count SERVO1 (tick_log ps s) = ps.length / 3 := by
    have := pulse_count_tick_log ps s hIE (by omega) (by omega)
    simpa [h3] using this
  have hstart : ∀ k < ps.length,
      pulse_starts SERVO1 ((tick_log ps s).getD k [])
        = if (k + 1) % 3 = 0 then 1 else 0 := by
    intro k hk
    rw [hlog k hk]
    split
    · exact pulse_starts_servo_pulse SERVO1 _ _ (by decide) (by decide)
    · simp [pulse_starts, LATC_writes]
  refine ⟨tick_log_length ps s, hlog, hstart, ?_, hcount, ?_⟩
  · intro k hk hp
    rw [hstart k (by omega)] at hp
    rw [hstart (k + 1) (by omega), hstart (k + 2) (by omega), hstart (k + 3) (by omega)]
    have hk3 : (k + 1) % 3 = 0 := by
      by_contra hne
      simp [hne] at hp
    have e1 : ¬ ((k + 1 + 1) % 3 = 0) := by omega
    have e2 : ¬ ((k + 2 + 1) % 3 = 0) := by omega
    have e3 : (k + 3 + 1) % 3 = 0 := by omega
    simp [e1, e2, e3]
  · intro hn
    rw [hcount, hn]

theorem servo_int_frame_cadence_witness :
    (main_init 255 255).timer0Periods = 3 ∧ (main_init 255 255).TMR0IE = true
      ∧ pulse_count SERVO1 (tick_log [0, 255, 7, 128, 128, 3, 9] (main_init 255 255))
          = [0, 255, 7, 128, 128, 3, 9].length / 3 :=
  ⟨by decide, by decide,
    (servo_int_frame_cadence [0, 255, 7, 128, 128, 3, 9] (main_init 255 255)
      (by decide) (by decide)).2.2.2.2.1⟩

/-- C9 as stated fails: the countdown starts at 3, which is outside
`[0, 2]`, and it is 3 again after every third serviced tick. -/
theorem timer0Periods_starts_at_3 :
    (main_init 0 255).timer0Periods = 3
      ∧ ¬ ((ticks [] (main_init 0 255)).timer0Periods ≤ 2)
      ∧ (ticks [128, 128, 128] (main_init 0 255)).timer0Periods = 3 := by
  decide

/-- C9, amended: with `N = 3` ticks per frame the countdown is always in
`[1, N]`: it starts at `N`, after any number `n` of serviced ticks it is
`N - n % N`, each tick takes it from `c` to `c - 1` except that from 1,
where the decrement reaches zero, it is reset to `N`. -/
theorem timer0Periods_range (latc trisc : Nat) (ps : List Nat) :
    (main_init latc trisc).timer0Periods = 3
      ∧ 1 ≤ (ticks ps (main_init latc trisc)).timer0Periods
      ∧ (ticks ps (main_init latc trisc)).timer0Periods ≤ 3
      ∧ (ticks ps (main_init latc trisc)).timer0Periods = 3 - ps.length % 3
      ∧ (∀ p, (ticks (ps ++ [p]) (main_init latc trisc)).timer0Periods
          = if (ticks ps (main_init latc trisc)).timer0Periods = 1 then 3
            else (ticks ps (main_init latc trisc)).timer0Periods - 1) := by
  obtain ⟨h3, hIE⟩ := main_init_eq latc trisc
  have h := ticks_timer0Periods ps (main_init latc trisc) hIE (by omega) (by omega)
  have hv : (ticks ps (main_init latc trisc)).timer0Periods = 3 - ps.length % 3 := by
    have := h.1
    simpa [h3] using this
  refine ⟨h3, by omega, by omega, hv, ?_⟩
  intro p
  rw [ticks_append]
  simp only [ticks]
  exact tick_timer0Periods p _ h.2 (by omega) (by omega)

/-! ## The pushbutton update -/

/-- The pushbutton update as a function of the prior position. -/
theorem main_pushbuttons_eq (SW3 SW4 : Nat) (s : State) :
    (main_pushbuttons SW3 SW4 s).servo1Position
        = (if SW4 = 0 ∧
              (if SW3 = 0 ∧ 0 < s.servo1Position
                then (s.servo1Position + 255) % 256 else s.servo1Position) < 255
            then ((if SW3 = 0 ∧ 0 < s.servo1Position
                then (s.servo1Position + 255) % 256 else s.servo1Position) + 1) % 256
            else (if SW3 = 0 ∧ 0 < s.servo1Position
                then (s.servo1Position + 255) % 256 else s.servo1Position))
      ∧ main_pushbuttons SW3 SW4 s
          = { s with servo1Position := (main_pushbuttons SW3 SW4 s).servo1Position } := by
  unfold main_pushbuttons
  simp only [Bool.and_eq_true, beq_iff_eq, decide_eq_true_eq, gt_iff_lt]
  by_cases h3 : SW3 = 0 ∧ 0 < s.servo1Position
  · simp only [h3, and_self, if_true]
    by_cases h4 : SW4 = 0 ∧ (s.servo1Position + 255) % 256 < 255
    · simp only [h4, and_self, if_true]
    · simp only [h4, if_false, and_self]
  · simp only [h3, if_false]
    by_cases h4 : SW4 = 0 ∧ s.servo1Position < 255
    · simp only [h4, and_self, if_true]
    · simp only [h4, if_false, and_self]

/-- C10: one pass of the pushbutton update never wraps `servo1Position`:
from a prior value `p` in 0..255, with `SW3` pressed (reading 0) alone the
new value is `max (p - 1) 0`, with `SW4` pressed alone it is
`min (p + 1) 255`, with neither pressed it is `p`, with both pressed it is
`p` except that 0 becomes 1; it stays in 0..255, differs from `p` by at most
1, and nothing else in the state changes. -/
theorem main_pushbuttons_no_wrap (SW3 SW4 : Nat) (s : State)
    (hp : s.servo1Position ≤ 255) :
    (SW3 = 0 → SW4 ≠ 0 →
        ((main_pushbuttons SW3 SW4 s).servo1Position : Int)
          = max ((s.servo1Position : Int) - 1) 0)
      ∧ (SW3 ≠ 0 → SW4 = 0 →
        (main_pushbuttons SW3 SW4 s).servo1Position = min (s.servo1Position + 1) 255)
      ∧ (SW3 ≠ 0 → SW4 ≠ 0 →
        (main_pushbuttons SW3 SW4 s).servo1Position = s.servo1Position)
      ∧ (SW3 = 0 → SW4 = 0 →
        (main_pushbuttons SW3 SW4 s).servo1Position
          = if s.servo1Position = 0 then 1 else s.servo1Position)
      ∧ (main_pushbuttons SW3 SW4 s).servo1Position ≤ 255
      ∧ (main_pushbuttons SW3 SW4 s).servo1Position ≤ s.servo1Position + 1
      ∧ s.servo1Position ≤ (main_pushbuttons SW3 SW4 s).servo1Position + 1
      ∧ main_pushbuttons SW3 SW4 s
          = { s with servo1Position := (main_pushbuttons SW3 SW4 s).servo1Position } := by
  obtain ⟨e, e'⟩ := main_pushbuttons_eq SW3 SW4 s
  refine ⟨?_, ?_, ?_, ?_, ?_, ?_, ?_, e'⟩
  · intro h3 h4
    rw [e]
    simp only [h3, h4, true_and, false_and, if_false]
    split <;> omega
  · intro h3 h4
    rw [e]
    simp only [h3, h4, true_and, false_and, if_false]
    split <;> omega
  · intro h3 h4
    rw [e]
    simp only [h3, h4, false_and, if_false]
  · intro h3 h4
    rw [e]
    simp only [h3, h4, true_and]
    split <;> split <;> split <;> omega
  · rw [e]; split <;> split <;> omega
  · rw [e]; split <;> split <;> omega
  · rw [e]; split <;> split <;> omega

theorem main_pushbuttons_no_wrap_witness :
    (init 0 255).servo1Position ≤ 255
      ∧ (main_pushbuttons 1 0 (init 0 255)).servo1Position
          = min ((init 0 255).servo1Position + 1) 255 :=
  ⟨by decide,
    (main_pushbuttons_no_wrap 1 0 (init 0 255) (by decide)).2.1 (by decide) rfl⟩

/-! ## The tick period -/

/-- C8 as stated fails: preset to 21 by `servo_int`, `TMR0` overflows after
235 counts of 256 instruction cycles, 60160 cycles, while 5 ms are 60000
instruction cycles at 48 MHz. -/
theorem TMR0_period_not_5ms :
    TMR0_overflow_cycles OPTION_REG (tick 128 (main_init 0 255)).TMR0 = 60160
      ∧ us_cycles 5000 = 60000
      ∧ TMR0_overflow_cycles OPTION_REG (tick 128 (main_init 0 255)).TMR0 ≠ us_cycles 5000 := by
  decide

/-- C8, amended: every serviced tick presets the eight-bit `TMR0` to 21;
with the 256:1 pre-scaler it then overflows after 235 * 256 = 60160
instruction cycles, which at 48 MHz is between 5013 and 5014 us (5013 1/3 us,
about 5 ms), and the 3 ticks counted per frame take 15040 us (about
15 ms). -/
theorem TMR0_period (position : Nat) (s : State) (hIE : s.TMR0IE = true) :
    (tick position s).TMR0 = 21
      ∧ TMR0_prescale OPTION_REG = 256
      ∧ TMR0_overflow_cycles OPTION_REG (tick position s).TMR0 = 235 * 256
      ∧ us_cycles 5013 < TMR0_overflow_cycles OPTION_REG (tick position s).TMR0
      ∧ TMR0_overflow_cycles OPTION_REG (tick position s).TMR0 < us_cycles 5014
      ∧ 3 * TMR0_overflow_cycles OPTION_REG (tick position s).TMR0 = us_cycles 15040 := by
  rw [tick_TMR0 position s hIE]
  decide

theorem TMR0_period_witness :
    (main_init 0 255).TMR0IE = true
      ∧ 3 * TMR0_overflow_cycles OPTION_REG (tick 128 (main_init 0 255)).TMR0
          = us_cycles 15040 :=
  ⟨by decide, (TMR0_period 128 (main_init 0 255) (by decide)).2.2.2.2.2⟩

end Servo
